import Mathlib

/-!
Verification of the Sidetree bitcoin processor (BitcoinProcessor) against its
natural-language specification.  The definitions below are a shallow embedding
of the TypeScript source: pure functions become Lean functions, the stateful
sync/rollback code becomes explicit state passing, JavaScript numbers are
modelled as Nat (all quantities in the source are non-negative integers),
fallible code returns Except/Option, and the unbounded `while` loop of
`revertBlockchainCache` is modelled with explicit fuel.
-/

namespace Sidetree

/-- Modelled from the spec: `TransactionNumber.construct` is not under src/;
the spec defines `transaction_number = (block_height × 2^24) + index_within_block`. -/
def TransactionNumber.construct (blockHeight txIndex : Nat) : Nat :=
  blockHeight * 2 ^ 24 + txIndex

/-- Modelled from the spec: `TransactionNumber.getBlockNumber` is not under src/;
the spec defines `block_of(n) = n >> 24`. -/
def TransactionNumber.getBlockNumber (transactionNumber : Nat) : Nat :=
  transactionNumber / 2 ^ 24

/-- One anchor record of the transaction log (TransactionModel of the source:
the five public fields kept by `BitcoinProcessor.transactions`). -/
structure TxRecord where
  transactionNumber : Nat
  transactionTime : Nat
  transactionTimeHash : String
  anchorString : String
  feePaid : Nat
  deriving DecidableEq, Repr

/-- Modelled from the spec: `MongoDbTransactionStore.removeTransactionsLaterThan`
is not under src/; the spec says `remove_later_than(txnum)` deletes all records
strictly greater than `txnum`. -/
def removeTransactionsLaterThan (log : List TxRecord) (txnum : Nat) : List TxRecord :=
  log.filter (fun r => r.transactionNumber ≤ txnum)

/-- Modelled from the spec: `MongoDbTransactionStore.getTransactionsCount`
is not under src/; it is the number of records in the log. -/
def getTransactionsCount (log : List TxRecord) : Nat :=
  log.length

/-- Offsets 0, 1, 2, 4, 8, 16, … that are below `len`; the fuel argument only
bounds the recursion (offsets double, so `len + 1` steps always suffice). -/
def expOffsets : Nat → Nat → Nat → List Nat
  | 0, _, _ => []
  | fuel + 1, off, len =>
      if off < len then off :: expOffsets fuel (max 1 (off * 2)) len else []

/-- Modelled from the spec: `MongoDbTransactionStore.getExponentiallySpacedTransactions`
is not under src/; the spec says it returns records at offsets 0, 1, 2, 4, 8, 16, …
from the tail (one per offset that exists), nearest the tail first. -/
def getExponentiallySpacedTransactions (log : List TxRecord) : List TxRecord :=
  (expOffsets (log.length + 1) 0 log.length).filterMap (fun off => log.reverse.get? off)

/-- BitcoinProcessor.firstValidTransaction: returns the first record of the list
whose block (height, hash) still verifies against the upstream chain.  The
upstream `verifyBlock` check is abstracted as the oracle `valid`. -/
def firstValidTransaction (valid : Nat → String → Bool) (ts : List TxRecord) : Option TxRecord :=
  ts.find? (fun t => valid t.transactionTime t.transactionTimeHash)

/-- Modelled from the spec: `SlidingWindowQuantileCalculator.removeBatchesGreaterThanOrEqual`
is not under src/; the spec says `remove_batches_ge(batch_id)` drops all snapshots
with id ≥ `batch_id`.  A snapshot is a pair (batch id, quantile value). -/
def removeBatchesGreaterThanOrEqual (snapshots : List (Nat × Nat)) (batchId : Nat) :
    List (Nat × Nat) :=
  snapshots.filter (fun s => s.1 < batchId)

/-- BitcoinProcessor.roundToBatchBoundary: `Math.floor(block / batchSize) * batchSize`,
the first block of the batch containing `block`. -/
def roundToBatchBoundary (batchSize block : Nat) : Nat :=
  block / batchSize * batchSize

/-- BitcoinProcessor.getBatchId: `Math.floor(block / batchSizeInBlocks)`. -/
def getBatchId (batchSize block : Nat) : Nat :=
  block / batchSize

/-- BitcoinProcessor.isBatchBoundary: `(block + 1) % batchSizeInBlocks === 0`. -/
def isBatchBoundary (batchSize block : Nat) : Bool :=
  (block + 1) % batchSize == 0

/-- The claimed rounding of the spec, stated in the spec's own words:
`batch_boundary_ceiling` rounds a block UP to the start of the next batch
(the least multiple of `batchSize` that is ≥ `block`).  Kept separate from
`roundToBatchBoundary` (translated from the source) for comparison. -/
def specBatchBoundaryCeiling (batchSize block : Nat) : Nat :=
  (block + batchSize - 1) / batchSize * batchSize

/-- State touched by `revertBlockchainCache`: the transaction log and the
quantile snapshots (pairs of batch id and quantile value). -/
structure CacheState where
  log : List TxRecord
  snapshots : List (Nat × Nat)
  deriving DecidableEq, Repr

/-- One iteration of the `while` loop of BitcoinProcessor.revertBlockchainCache.
`Sum.inl (revertToBlockNumber, state)` models the `return revertToBlockNumber`
when a surviving probe is found: the log is truncated to
`TransactionNumber.construct revertToBlockNumber 0 - 1` and the quantile
calculator is called with the raw `revertToBlockNumber` (as at source line 533).
`Sum.inr state` models falling to the bottom of the loop body: everything
strictly later than `construct(lowestHeight, 0)` is removed and the loop repeats.
The unreachable fallback (probes empty while the log is not) returns the state
unchanged. -/
def revertStep (batchSize : Nat) (valid : Nat → String → Bool) (s : CacheState) :
    Sum (Nat × CacheState) CacheState :=
  let probes := getExponentiallySpacedTransactions s.log
  match firstValidTransaction valid probes with
  | some survivor =>
      let revertToBlockNumber := roundToBatchBoundary batchSize (survivor.transactionTime + 1)
      let revertToTransactionNumber := TransactionNumber.construct revertToBlockNumber 0 - 1
      Sum.inl (revertToBlockNumber,
        { log := removeTransactionsLaterThan s.log revertToTransactionNumber,
          snapshots := removeBatchesGreaterThanOrEqual s.snapshots revertToBlockNumber })
  | none =>
      match probes.getLast? with
      | some oldest =>
          let n := TransactionNumber.construct oldest.transactionTime 0
          Sum.inr { s with log := removeTransactionsLaterThan s.log n }
      | none => Sum.inr s

/-- BitcoinProcessor.revertBlockchainCache, with explicit fuel for the `while`
loop.  `some (height, state)` is the returned last-good height together with
the resulting cache state; `none` means the fuel ran out, i.e. the loop has
not returned within `fuel` iterations. -/
def revertBlockchainCache (batchSize genesis : Nat) (valid : Nat → String → Bool) :
    Nat → CacheState → Option (Nat × CacheState)
  | 0, _ => none
  | fuel + 1, s =>
      if getTransactionsCount s.log = 0 then some (genesis, s)
      else
        match revertStep batchSize valid s with
        | Sum.inl r => some r
        | Sum.inr s2 => revertBlockchainCache batchSize genesis valid fuel s2

/-- Heights processed by BitcoinProcessor.processTransactions once the start
height is fixed: the `for` loop runs `startBlockHeight ≤ h < endBlockHeight`
and `processBlock(endBlockHeight)` always runs afterwards; `none` models the
`Cannot process Transactions before genesis` exception. -/
def processTransactionsHeights (genesis startBlockHeight endBlockHeight : Nat) :
    Option (List Nat) :=
  if startBlockHeight < genesis || endBlockHeight < genesis then none
  else some (List.range' startBlockHeight (endBlockHeight - startBlockHeight) ++ [endBlockHeight])

/-- JavaScript truthiness of an optional number: `undefined` and `0` are falsy. -/
def jsTruthyNum : Option Nat → Bool
  | none => false
  | some n => n != 0

/-- JavaScript truthiness of an optional string: `undefined` and the empty
string are falsy. -/
def jsTruthyStr : Option String → Bool
  | none => false
  | some s => s != ""

/-- Modelled from the spec: `MongoDbTransactionStore.getTransactionsLaterThan`
is not under src/; the spec says `later_than(txnum, limit)` returns up to
`limit` records with `transaction_number > txnum` in ascending order, and
`none` means from the beginning. -/
def getTransactionsLaterThan (log : List TxRecord) (since : Option Nat) (limit : Nat) :
    List TxRecord :=
  (log.filter (fun r =>
    match since with
    | none => true
    | some n => n < r.transactionNumber)).take limit

/-- BitcoinProcessor.transactions: the guards mirror the JavaScript conditions
`(since && !hash) || (!since && hash)` and `since && hash` literally, including
their truthiness semantics; on success it returns the page of records together
with `moreTransactions = (transactions.length === pageSize)`.  `Except.error ()`
models `throw new RequestError(ResponseStatus.BadRequest, ...)`. -/
def transactionsQuery (verify : Nat → String → Bool) (log : List TxRecord)
    (pageSize : Nat) (since : Option Nat) (hash : Option String) :
    Except Unit (List TxRecord × Bool) :=
  if (jsTruthyNum since && !jsTruthyStr hash) || (!jsTruthyNum since && jsTruthyStr hash) then
    Except.error ()
  else if jsTruthyNum since && jsTruthyStr hash
      && !verify (TransactionNumber.getBlockNumber (since.getD 0)) (hash.getD "") then
    Except.error ()
  else
    let ts := getTransactionsLaterThan log since pageSize
    Except.ok (ts, ts.length == pageSize)

/-- BitcoinProcessor.fee.  `getQuantile` abstracts
`SlidingWindowQuantileCalculator.getQuantile` (not under src/): the persisted
quantile value of a batch id, if a snapshot exists.  The JavaScript guard
`if (quantileValue)` is truthy only for a present, non-zero value.  The float
`quantileScale` is modelled as a rational. -/
def fee (historicalOffsetInBlocks batchSize : Nat) (quantileScale : ℚ)
    (getQuantile : Nat → Option Nat) (block : Nat) : Option ℚ :=
  let blockAfterHistoryOffset := block - historicalOffsetInBlocks
  let batchId := blockAfterHistoryOffset / batchSize
  match getQuantile batchId with
  | some q => if q != 0 then some (q * quantileScale) else none
  | none => none

/-- One bitcoin transaction as seen by BitcoinProcessor.processBlock.
`vout = none` models a transaction object without a `vout` field (source line
609 skips it).  Each present output is modelled by the result of the source's
OP_RETURN extraction (lines 713-723: match `scriptPubKey.asm` against
`OP_RETURN <hex>` and hex-decode): `some data` is the decoded data of a
matching output, `none` an output whose script does not match.  `vinCount` is
`transaction.vin.length`. -/
structure BTxn where
  txid : String
  vout : Option (List (Option String))
  vinCount : Nat
  deriving DecidableEq, Repr

/-- Boolean prefix test on strings by character list, mirroring the JavaScript
`data.startsWith(prefix)` of the source (kept as an executable structural
recursion; it agrees with the library prefix test). -/
def strStartsWith (data pfx : String) : Bool :=
  pfx.data.isPrefixOf data.data

/-- The output scan of BitcoinProcessor.addValidSidetreeTransactionsFromVOutsToTransactionStore:
walk the outputs keeping the data of the sidetree anchor found so far; a second
output whose data starts with the sidetree anchor marker `pfx` throws
(`The transaction has more then one sidetree anchor strings.`), modelled as
`Except.error ()`. -/
def scanVouts (pfx : String) : Option String → List (Option String) → Except Unit (Option String)
  | acc, [] => Except.ok acc
  | acc, v :: rest =>
      match v with
      | none => scanVouts pfx acc rest
      | some data =>
          if strStartsWith data pfx then
            if acc.isSome then Except.error ()
            else scanVouts pfx (some data) rest
          else scanVouts pfx acc rest

/-- Number of outputs of a list whose decoded OP_RETURN data starts with the
anchor marker `pfx`. -/
def anchorDataCount (pfx : String) (vouts : List (Option String)) : Nat :=
  (vouts.filter (fun v =>
    match v with
    | some data => strStartsWith data pfx
    | none => false)).length

/-- Number of outputs of a transaction whose decoded OP_RETURN data starts with
the anchor marker `pfx`. -/
def anchorOutputCount (pfx : String) (t : BTxn) : Nat :=
  match t.vout with
  | none => 0
  | some vouts => anchorDataCount pfx vouts

/-- The contribution of one transaction to a processed block, following the
loop body of BitcoinProcessor.processBlock (lines 605-632): first component the
anchor record appended to the transaction store (if any), second component the
txid offered to the reservoir sampler (if any).  A transaction without a `vout`
field is skipped; an exception from the vout scan is caught and the transaction
skipped; a found anchor gets `transaction_number = construct(blockHeight, txIndex)`,
the anchor payload with the marker stripped, and its fee (the upstream fee
computation is abstracted as the oracle `feeOf`); a non-anchor transaction with
at most `maxInputCount` inputs is offered to the sampler. -/
def txContribution (pfx : String) (maxInputCount blockHeight : Nat) (blockHash : String)
    (feeOf : String → Nat) (txIndex : Nat) (t : BTxn) : Option TxRecord × Option String :=
  match t.vout with
  | none => (none, none)
  | some vouts =>
      match scanVouts pfx none vouts with
      | Except.error _ => (none, none)
      | Except.ok (some data) =>
          (some { transactionNumber := TransactionNumber.construct blockHeight txIndex,
                  transactionTime := blockHeight,
                  transactionTimeHash := blockHash,
                  anchorString := data.drop pfx.length,
                  feePaid := feeOf t.txid }, none)
      | Except.ok none =>
          (none, if t.vinCount ≤ maxInputCount then some t.txid else none)

/-- Result of processing the transactions of one block: the anchor records
appended to the transaction store and the txids offered to the reservoir
sampler, in transaction order. -/
structure BlockOutcome where
  newRecords : List TxRecord
  sampled : List String
  deriving DecidableEq, Repr

/-- The transaction loop of BitcoinProcessor.processBlock, starting at
transaction index `i`. -/
def processBlockTxnsAux (pfx : String) (maxInputCount blockHeight : Nat) (blockHash : String)
    (feeOf : String → Nat) : Nat → List BTxn → BlockOutcome
  | _, [] => { newRecords := [], sampled := [] }
  | i, t :: rest =>
      let c := txContribution pfx maxInputCount blockHeight blockHash feeOf i t
      let tail := processBlockTxnsAux pfx maxInputCount blockHeight blockHash feeOf (i + 1) rest
      { newRecords := c.1.toList ++ tail.newRecords,
        sampled := c.2.toList ++ tail.sampled }

/-- The transaction loop of BitcoinProcessor.processBlock over a whole block
(`transactionIndex` starts at 0). -/
def processBlockTxns (pfx : String) (maxInputCount blockHeight : Nat) (blockHash : String)
    (feeOf : String → Nat) (txns : List BTxn) : BlockOutcome :=
  processBlockTxnsAux pfx maxInputCount blockHeight blockHash feeOf 0 txns

/-- Outcome of one fetch attempt in BitcoinProcessor.fetchWithRetry:
success, a `request-timeout` FetchError, or any other error. -/
inductive AttemptResult
  | ok
  | timedOut
  | fatal
  deriving DecidableEq, Repr

/-- Result of BitcoinProcessor.fetchWithRetry: the response, the propagated
timeout error, or a propagated non-timeout error. -/
inductive FetchResult
  | ok
  | timeoutError
  | fatalError
  deriving DecidableEq, Repr

/-- BitcoinProcessor.fetchWithRetry starting with `retryCount = k`: attempt
`k` uses timeout `t0 * 2 ^ k`; on a timeout error with `retryCount >= maxRetries`
the error is thrown, otherwise the loop continues with `retryCount + 1`; any
other error is thrown at once.  The outcome of the k-th underlying `nodeFetch`
call is abstracted as `oracle k`.  Returns the per-attempt timeouts used and
the final result. -/
def fetchWithRetryGo (t0 maxRetries : Nat) (oracle : Nat → AttemptResult) (k : Nat) :
    List Nat × FetchResult :=
  let timeoutMs := t0 * 2 ^ k
  match oracle k with
  | AttemptResult.ok => ([timeoutMs], FetchResult.ok)
  | AttemptResult.fatal => ([timeoutMs], FetchResult.fatalError)
  | AttemptResult.timedOut =>
      if maxRetries ≤ k then ([timeoutMs], FetchResult.timeoutError)
      else
        let rest := fetchWithRetryGo t0 maxRetries oracle (k + 1)
        (timeoutMs :: rest.1, rest.2)
  termination_by maxRetries - k
  decreasing_by omega

/-- BitcoinProcessor.fetchWithRetry: the loop starts with `retryCount = 0`. -/
def fetchWithRetry (t0 maxRetries : Nat) (oracle : Nat → AttemptResult) :
    List Nat × FetchResult :=
  fetchWithRetryGo t0 maxRetries oracle 0

/-- C1: the claim says rollback computes
`revert_to_block = batch_boundary_ceiling(survivor.height + 1)`, rounding UP,
so that with batch size 4 and a survivor at block 5 the revert block is 8.
The code rounds DOWN (`roundToBatchBoundary` is a floor): with batch size 4,
a log holding one surviving record at block 5, the returned revert block is 4,
not the claimed ceiling 8. -/
theorem revert_counterexample_rounds_down_not_up :
    (revertBlockchainCache 4 0 (fun h hsh => h == 5 && hsh == "h5") 1
        { log := [{ transactionNumber := TransactionNumber.construct 5 0,
                    transactionTime := 5, transactionTimeHash := "h5",
                    anchorString := "a", feePaid := 0 }],
          snapshots := [] }).map Prod.fst = some 4 ∧
    specBatchBoundaryCeiling 4 (5 + 1) = 8 ∧ (4 : Nat) ≠ 8 := by
  refine ⟨?_, by decide, by decide⟩
  rfl

/-- C1 (amended): during rollback, when a surviving probe is found, the block
to revert to is `survivor.height + 1` rounded DOWN to the first block of its
own batch: the result is a multiple of the batch size, is at most
`survivor.height + 1`, and is within one batch of it (so with batch size 4 and
a survivor at block 5 it is 4, not 8). -/
theorem revertBlockchainCache_rounds_down_to_batch_start
    (batchSize genesis fuel : Nat) (valid : Nat → String → Bool) (s : CacheState)
    (survivor : TxRecord) (hbs : 0 < batchSize) (hlog : s.log ≠ [])
    (hfind : firstValidTransaction valid (getExponentiallySpacedTransactions s.log)
      = some survivor) :
    (revertBlockchainCache batchSize genesis valid (fuel + 1) s).map Prod.fst
        = some (roundToBatchBoundary batchSize (survivor.transactionTime + 1)) ∧
    batchSize ∣ roundToBatchBoundary batchSize (survivor.transactionTime + 1) ∧
    roundToBatchBoundary batchSize (survivor.transactionTime + 1)
        ≤ survivor.transactionTime + 1 ∧
    survivor.transactionTime + 1
        < roundToBatchBoundary batchSize (survivor.transactionTime + 1) + batchSize := by
  have hcount : ¬ getTransactionsCount s.log = 0 := by
    simpa [getTransactionsCount, List.length_eq_zero] using hlog
  refine ⟨?_, dvd_mul_left _ _, Nat.div_mul_le_self _ _, ?_⟩
  · simp [revertBlockchainCache, hcount, revertStep, hfind]
  · exact Nat.lt_div_mul_add hbs

/-- C1 witness: with batch size 4 and a surviving probe at block 5, the revert
block is `roundToBatchBoundary 4 6 = 4`, a multiple of 4 at most 6 and within
one batch of 6. -/
theorem revertBlockchainCache_rounds_down_to_batch_start_witness :
    (revertBlockchainCache 4 0 (fun h hsh => h == 5 && hsh == "h5") 1
        { log := [{ transactionNumber := TransactionNumber.construct 5 0,
                    transactionTime := 5, transactionTimeHash := "h5",
                    anchorString := "a", feePaid := 0 }],
          snapshots := [] }).map Prod.fst = some (roundToBatchBoundary 4 6) ∧
    4 ∣ roundToBatchBoundary 4 6 ∧
    roundToBatchBoundary 4 6 ≤ 6 ∧
    6 < roundToBatchBoundary 4 6 + 4 :=
  revertBlockchainCache_rounds_down_to_batch_start 4 0 0
    (fun h hsh => h == 5 && hsh == "h5")
    { log := [{ transactionNumber := TransactionNumber.construct 5 0,
                transactionTime := 5, transactionTimeHash := "h5",
                anchorString := "a", feePaid := 0 }],
      snapshots := [] }
    { transactionNumber := TransactionNumber.construct 5 0, transactionTime := 5,
      transactionTimeHash := "h5", anchorString := "a", feePaid := 0 }
    (by decide) (by decide) (by decide)

/-- C2: the claim says rollback truncates the quantile state with the BATCH ID
of the revert-to block.  The code (source line 533) passes the raw block number
`revertToBlockNumber` instead: with batch size 4, a surviving record at block 5
(revert-to block 4) and snapshots for batch ids 0 and 1, the code's rollback
leaves both snapshots in place, while the claimed call
`removeBatchesGreaterThanOrEqual (getBatchId 4 4)` would drop batch 1. -/
theorem revert_passes_block_number_not_batch_id :
    (revertBlockchainCache 4 0 (fun h hsh => h == 5 && hsh == "h5") 1
        { log := [{ transactionNumber := TransactionNumber.construct 5 0,
                    transactionTime := 5, transactionTimeHash := "h5",
                    anchorString := "a", feePaid := 0 }],
          snapshots := [(0, 10), (1, 20)] }).map (fun p => p.2.snapshots)
      = some [(0, 10), (1, 20)] ∧
    getBatchId 4 4 = 1 ∧
    removeBatchesGreaterThanOrEqual [(0, 10), (1, 20)] (getBatchId 4 4) = [(0, 10)] := by
  refine ⟨?_, by decide, by decide⟩
  rfl

/-- C3: the claim says the rollback loop terminates for every initial log,
in particular on a single record whose in-block index is 0 when no probe
survives.  On that very input the code loops forever: the only probe has
`transaction_number = construct(height, 0)`, and removing records strictly
later than `construct(height, 0)` removes nothing, so the loop never shrinks
the log and `revertBlockchainCache` runs out of any amount of fuel. -/
theorem revert_single_index_zero_record_never_terminates (fuel : Nat) :
    revertBlockchainCache 4 0 (fun _ _ => false) fuel
        { log := [{ transactionNumber := TransactionNumber.construct 7 0,
                    transactionTime := 7, transactionTimeHash := "h7",
                    anchorString := "a", feePaid := 0 }],
          snapshots := [] } = none := by
  induction fuel with
  | zero => rfl
  | succ n ih => exact ih

/-- C4: the claim says a tick whose starting block still matches upstream
processes exactly the blocks `from.height + 1 .. tip`, never re-processing
`from.height`.  The code's loop starts AT `from.height`: with start 5 and tip
7 it processes [5, 6, 7], not [6, 7], and 5 is processed again. -/
theorem processTransactions_counterexample_reprocesses_start :
    processTransactionsHeights 0 5 7 = some [5, 6, 7] ∧
    processTransactionsHeights 0 5 7 ≠ some [6, 7] ∧
    5 ∈ [5, 6, 7] := by decide

/-- C4 (amended): on a tick whose starting block (height, hash) still matches
the upstream chain (so the start height is `from.height`, at or above genesis),
the engine processes exactly the blocks `from.height .. tip` inclusive, each
once — i.e. it re-processes the already seen block `from.height`. -/
theorem processTransactions_processes_start_through_tip (genesis s e : Nat)
    (hg : genesis ≤ s) (hse : s ≤ e) :
    processTransactionsHeights genesis s e = some (List.range' s (e - s + 1)) ∧
    (∀ h, h ∈ List.range' s (e - s + 1) ↔ s ≤ h ∧ h ≤ e) ∧
    (List.range' s (e - s + 1)).Nodup := by
  refine ⟨?_, ?_, List.nodup_range' s (e - s + 1)⟩
  · have hcond : (s < genesis || e < genesis) = false := by
      simp only [Bool.or_eq_false_iff, decide_eq_false_iff_not, Nat.not_lt]
      exact ⟨hg, le_trans hg hse⟩
    have hc : List.range' s (e - s) ++ [e] = List.range' s (e - s + 1) := by
      rw [List.range'_concat]
      have he : s + 1 * (e - s) = e := by omega
      rw [he]
    simp [processTransactionsHeights, hcond, hc]
  · intro h
    rw [List.mem_range'_1]
    omega

/-- C4 witness: with genesis 0, start 5 and tip 7 the processed heights are
`range' 5 3 = [5, 6, 7]`, without duplicates. -/
theorem processTransactions_processes_start_through_tip_witness :
    processTransactionsHeights 0 5 7 = some (List.range' 5 3) ∧
    (List.range' 5 3).Nodup :=
  ⟨(processTransactions_processes_start_through_tip 0 5 7 (by decide) (by decide)).1,
   (processTransactions_processes_start_through_tip 0 5 7 (by decide) (by decide)).2.2⟩

/-- C5: the claim says the transactions query raises BadRequest iff exactly one
of `since`/`hash` is supplied, for every `since` including 0, and that with both
supplied it raises BadRequest exactly on a hash mismatch.  The JavaScript guard
uses truthiness, and `since = 0` is falsy: with `since = 0` and a matching hash
supplied the code raises BadRequest anyway, and with `since = 0` supplied alone
it does not raise BadRequest — both directions of the claim fail at 0. -/
theorem transactions_counterexample_since_zero :
    transactionsQuery (fun _ _ => true) [] 1 (some 0) (some "x") = Except.error () ∧
    transactionsQuery (fun _ _ => true) [] 1 (some 0) none = Except.ok ([], false) := by
  constructor
  · rfl
  · rfl

/-- C5 (amended): the query raises BadRequest iff exactly one of `since`/`hash`
is TRUTHY (`since` supplied and non-zero, `hash` supplied and non-empty), or
both are truthy and the stored block hash of the block of `since` does not
match `hash`; in particular `since = 0` is treated as if it were absent. -/
theorem transactionsQuery_badrequest_iff (verify : Nat → String → Bool)
    (log : List TxRecord) (pageSize : Nat) (since : Option Nat) (hash : Option String) :
    transactionsQuery verify log pageSize since hash = Except.error () ↔
      (jsTruthyNum since ≠ jsTruthyStr hash ∨
        (jsTruthyNum since = true ∧ jsTruthyStr hash = true ∧
          verify (TransactionNumber.getBlockNumber (since.getD 0)) (hash.getD "")
            = false)) := by
  unfold transactionsQuery
  cases hs : jsTruthyNum since <;> cases hh : jsTruthyStr hash
  · simp [hs, hh]
  · simp [hs, hh]
  · simp [hs, hh]
  · cases hv : verify (TransactionNumber.getBlockNumber (since.getD 0)) (hash.getD "") <;>
      simp [hs, hh, hv]

/-- C5 witness: a truthy `since` with a truthy, mismatching hash is rejected. -/
theorem transactionsQuery_badrequest_iff_witness :
    transactionsQuery (fun _ _ => false) [] 1 (some 2) (some "y") = Except.error () :=
  (transactionsQuery_badrequest_iff (fun _ _ => false) [] 1 (some 2) (some "y")).mpr
    (Or.inr ⟨by decide, by decide, rfl⟩)

/-- C6: the claim says `fee` returns the persisted quantile value times the
scale whenever a snapshot exists, including when the stored value is 0.  The
JavaScript guard `if (quantileValue)` treats a stored 0 as missing: with a
snapshot whose quantile value is 0 the code returns none, not `some 0`. -/
theorem fee_counterexample_zero_quantile :
    fee 0 4 1 (fun _ => some 0) 3 = none ∧
    (fun _ => some (0 : Nat)) ((3 - 0) / 4) = some 0 := by
  constructor
  · rfl
  · rfl

/-- C6 (amended): `fee(block)` returns
`quantile(batch_id(max(block − historical_offset, 0))) × quantile_scale` when a
snapshot for that batch exists AND its stored value is non-zero, and returns
none when no snapshot exists OR the stored value is 0. -/
theorem fee_some_iff (off bs : Nat) (scale : ℚ) (gq : Nat → Option Nat) (block : Nat) :
    (∀ v : ℚ, fee off bs scale gq block = some v ↔
      ∃ q : Nat, gq ((block - off) / bs) = some q ∧ q ≠ 0 ∧ v = q * scale) ∧
    (fee off bs scale gq block = none ↔
      gq ((block - off) / bs) = none ∨ gq ((block - off) / bs) = some 0) := by
  have hfee : fee off bs scale gq block
      = match gq ((block - off) / bs) with
        | some q => if q != 0 then some ((q : ℚ) * scale) else none
        | none => none := rfl
  rw [hfee]
  cases hq : gq ((block - off) / bs) with
  | none => simp
  | some q =>
      by_cases h0 : q = 0
      · subst h0
        simp
      · have hne : (q != 0) = true := by simpa using h0
        simp [hne, h0, eq_comm]

/-- C6 witness: a present non-zero snapshot value 8 with scale 3/2 yields 12. -/
theorem fee_some_iff_witness :
    fee 2 4 (3 / 2 : ℚ) (fun b => if b == 2 then some 8 else none) 10 = some 12 :=
  ((fee_some_iff 2 4 (3 / 2 : ℚ) (fun b => if b == 2 then some 8 else none) 10).1 12).mpr
    ⟨8, rfl, by decide, by norm_num⟩

/-- Once one anchor output has been seen, any further anchor output makes the
vout scan throw. -/
theorem scanVouts_some_error (pfx d : String) :
    ∀ vouts : List (Option String), 1 ≤ anchorDataCount pfx vouts →
      scanVouts pfx (some d) vouts = Except.error () := by
  intro vouts
  induction vouts with
  | nil => intro h; simp [anchorDataCount] at h
  | cons v rest ih =>
      intro h
      match v with
      | none =>
          have h2 : 1 ≤ anchorDataCount pfx rest := by
            simpa [anchorDataCount, List.filter_cons] using h
          simpa [scanVouts] using ih h2
      | some data =>
          by_cases hd : strStartsWith data pfx = true
          · simp [scanVouts, hd]
          · have h2 : 1 ≤ anchorDataCount pfx rest := by
              simpa [anchorDataCount, List.filter_cons, hd] using h
            simpa [scanVouts, hd] using ih h2

/-- A vout list holding two or more anchor outputs makes the scan throw. -/
theorem scanVouts_two_anchors_error (pfx : String) :
    ∀ vouts : List (Option String), 2 ≤ anchorDataCount pfx vouts →
      scanVouts pfx none vouts = Except.error () := by
  intro vouts
  induction vouts with
  | nil => intro h; simp [anchorDataCount] at h
  | cons v rest ih =>
      intro h
      match v with
      | none =>
          have h2 : 2 ≤ anchorDataCount pfx rest := by
            simpa [anchorDataCount, List.filter_cons] using h
          simpa [scanVouts] using ih h2
      | some data =>
          by_cases hd : strStartsWith data pfx = true
          · have hcnt : anchorDataCount pfx (some data :: rest)
                = anchorDataCount pfx rest + 1 := by
              simp [anchorDataCount, List.filter_cons, hd]
            rw [hcnt] at h
            have h1 : 1 ≤ anchorDataCount pfx rest := by omega
            simpa [scanVouts, hd] using scanVouts_some_error pfx data rest h1
          · have h2 : 2 ≤ anchorDataCount pfx rest := by
              simpa [anchorDataCount, List.filter_cons, hd] using h
            simpa [scanVouts, hd] using ih h2

/-- A transaction with two or more anchor outputs contributes neither an anchor
record nor a sampler entry. -/
theorem txContribution_of_double_anchor (pfx : String) (maxInputCount blockHeight : Nat)
    (blockHash : String) (feeOf : String → Nat) (txIndex : Nat) (t : BTxn)
    (h2 : 2 ≤ anchorOutputCount pfx t) :
    txContribution pfx maxInputCount blockHeight blockHash feeOf txIndex t = (none, none) := by
  match hv : t.vout with
  | none => simp [txContribution, hv]
  | some vouts =>
      have herr : scanVouts pfx none vouts = Except.error () := by
        apply scanVouts_two_anchors_error
        simpa [anchorOutputCount, hv] using h2
      simp [txContribution, hv, herr]

/-- A transaction without a `vout` field contributes neither an anchor record
nor a sampler entry. -/
theorem txContribution_of_no_vout (pfx : String) (maxInputCount blockHeight : Nat)
    (blockHash : String) (feeOf : String → Nat) (txIndex : Nat) (t : BTxn)
    (hv : t.vout = none) :
    txContribution pfx maxInputCount blockHeight blockHash feeOf txIndex t = (none, none) := by
  simp [txContribution, hv]

/-- The transaction loop distributes over list append, with the start index
shifted by the length of the first part. -/
theorem processBlockTxnsAux_append (pfx : String) (maxInputCount blockHeight : Nat)
    (blockHash : String) (feeOf : String → Nat) :
    ∀ (xs ys : List BTxn) (j : Nat),
      processBlockTxnsAux pfx maxInputCount blockHeight blockHash feeOf j (xs ++ ys)
        = { newRecords :=
              (processBlockTxnsAux pfx maxInputCount blockHeight blockHash feeOf
                  j xs).newRecords
              ++ (processBlockTxnsAux pfx maxInputCount blockHeight blockHash feeOf
                  (j + xs.length) ys).newRecords,
            sampled :=
              (processBlockTxnsAux pfx maxInputCount blockHeight blockHash feeOf
                  j xs).sampled
              ++ (processBlockTxnsAux pfx maxInputCount blockHeight blockHash feeOf
                  (j + xs.length) ys).sampled } := by
  intro xs
  induction xs with
  | nil => intro ys j; simp [processBlockTxnsAux]
  | cons x rest ih =>
      intro ys j
      have hj : j + (rest.length + 1) = (j + 1) + rest.length := by omega
      simp [processBlockTxnsAux, ih ys (j + 1), List.length_cons, hj, List.append_assoc]

/-- Processing a block where the transaction at (0-based) index `pre.length`
contributes nothing yields exactly the contributions of the surrounding
transactions, at their original indices. -/
theorem processBlockTxns_skip_middle (pfx : String) (maxInputCount blockHeight : Nat)
    (blockHash : String) (feeOf : String → Nat) (pre post : List BTxn) (t : BTxn)
    (hc : txContribution pfx maxInputCount blockHeight blockHash feeOf pre.length t
      = (none, none)) :
    processBlockTxns pfx maxInputCount blockHeight blockHash feeOf (pre ++ t :: post)
      = { newRecords :=
            (processBlockTxnsAux pfx maxInputCount blockHeight blockHash feeOf
                0 pre).newRecords
            ++ (processBlockTxnsAux pfx maxInputCount blockHeight blockHash feeOf
                (pre.length + 1) post).newRecords,
          sampled :=
            (processBlockTxnsAux pfx maxInputCount blockHeight blockHash feeOf
                0 pre).sampled
            ++ (processBlockTxnsAux pfx maxInputCount blockHeight blockHash feeOf
                (pre.length + 1) post).sampled } := by
  unfold processBlockTxns
  rw [processBlockTxnsAux_append pfx maxInputCount blockHeight blockHash feeOf pre
      (t :: post) 0]
  have hmid : processBlockTxnsAux pfx maxInputCount blockHeight blockHash feeOf
        (0 + pre.length) (t :: post)
      = processBlockTxnsAux pfx maxInputCount blockHeight blockHash feeOf
        (pre.length + 1) post := by
    simp [processBlockTxnsAux, Nat.zero_add, hc]
  rw [hmid]

/-- C7: a transaction with two or more OP_RETURN outputs whose decoded data
starts with the anchor marker contributes nothing — no anchor record is
appended and its txid is not offered to the reservoir sampler — while the
transactions before it (from index 0) and after it (from index
`pre.length + 1`) are still processed normally at their original indices. -/
theorem processBlock_skips_double_anchor_transaction (pfx : String)
    (maxInputCount blockHeight : Nat) (blockHash : String) (feeOf : String → Nat)
    (pre post : List BTxn) (t : BTxn) (h2 : 2 ≤ anchorOutputCount pfx t) :
    txContribution pfx maxInputCount blockHeight blockHash feeOf pre.length t
        = (none, none) ∧
    processBlockTxns pfx maxInputCount blockHeight blockHash feeOf (pre ++ t :: post)
      = { newRecords :=
            (processBlockTxnsAux pfx maxInputCount blockHeight blockHash feeOf
                0 pre).newRecords
            ++ (processBlockTxnsAux pfx maxInputCount blockHeight blockHash feeOf
                (pre.length + 1) post).newRecords,
          sampled :=
            (processBlockTxnsAux pfx maxInputCount blockHeight blockHash feeOf
                0 pre).sampled
            ++ (processBlockTxnsAux pfx maxInputCount blockHeight blockHash feeOf
                (pre.length + 1) post).sampled } := by
  have hc := txContribution_of_double_anchor pfx maxInputCount blockHeight blockHash
    feeOf pre.length t h2
  exact ⟨hc, processBlockTxns_skip_middle pfx maxInputCount blockHeight blockHash
    feeOf pre post t hc⟩

/-- C7 witness: a concrete block where transaction 1 carries two anchor
outputs; it contributes nothing and its neighbours are processed normally. -/
theorem processBlock_skips_double_anchor_transaction_witness :
    txContribution "sidetree:" 5 101 "bh" (fun _ => 3) 1
        { txid := "t1", vout := some [some "sidetree:abc", some "sidetree:def"],
          vinCount := 1 }
      = (none, none) ∧
    processBlockTxns "sidetree:" 5 101 "bh" (fun _ => 3)
        ([{ txid := "t0", vout := some [some "sidetree:xyz"], vinCount := 1 }]
          ++ { txid := "t1", vout := some [some "sidetree:abc", some "sidetree:def"],
               vinCount := 1 }
            :: [{ txid := "t2", vout := some [none], vinCount := 2 }])
      = { newRecords :=
            (processBlockTxnsAux "sidetree:" 5 101 "bh" (fun _ => 3) 0
                [{ txid := "t0", vout := some [some "sidetree:xyz"],
                   vinCount := 1 }]).newRecords
            ++ (processBlockTxnsAux "sidetree:" 5 101 "bh" (fun _ => 3) 2
                [{ txid := "t2", vout := some [none], vinCount := 2 }]).newRecords,
          sampled :=
            (processBlockTxnsAux "sidetree:" 5 101 "bh" (fun _ => 3) 0
                [{ txid := "t0", vout := some [some "sidetree:xyz"],
                   vinCount := 1 }]).sampled
            ++ (processBlockTxnsAux "sidetree:" 5 101 "bh" (fun _ => 3) 2
                [{ txid := "t2", vout := some [none], vinCount := 2 }]).sampled } :=
  processBlock_skips_double_anchor_transaction "sidetree:" 5 101 "bh" (fun _ => 3)
    [{ txid := "t0", vout := some [some "sidetree:xyz"], vinCount := 1 }]
    [{ txid := "t2", vout := some [none], vinCount := 2 }]
    { txid := "t1", vout := some [some "sidetree:abc", some "sidetree:def"],
      vinCount := 1 }
    (by decide)

/-- C10: a transaction object carrying no `vout` field is skipped without any
error: it contributes no anchor record, its txid is not offered to the
reservoir sampler, and the transactions before and after it are still
processed normally at their original indices. -/
theorem processBlock_skips_transaction_without_vout (pfx : String)
    (maxInputCount blockHeight : Nat) (blockHash : String) (feeOf : String → Nat)
    (pre post : List BTxn) (t : BTxn) (hv : t.vout = none) :
    txContribution pfx maxInputCount blockHeight blockHash feeOf pre.length t
        = (none, none) ∧
    processBlockTxns pfx maxInputCount blockHeight blockHash feeOf (pre ++ t :: post)
      = { newRecords :=
            (processBlockTxnsAux pfx maxInputCount blockHeight blockHash feeOf
                0 pre).newRecords
            ++ (processBlockTxnsAux pfx maxInputCount blockHeight blockHash feeOf
                (pre.length + 1) post).newRecords,
          sampled :=
            (processBlockTxnsAux pfx maxInputCount blockHeight blockHash feeOf
                0 pre).sampled
            ++ (processBlockTxnsAux pfx maxInputCount blockHeight blockHash feeOf
                (pre.length + 1) post).sampled } := by
  have hc := txContribution_of_no_vout pfx maxInputCount blockHeight blockHash
    feeOf pre.length t hv
  exact ⟨hc, processBlockTxns_skip_middle pfx maxInputCount blockHeight blockHash
    feeOf pre post t hc⟩

/-- C10 witness: a concrete block whose first transaction has no `vout` field;
it contributes nothing and the following transaction is processed normally. -/
theorem processBlock_skips_transaction_without_vout_witness :
    txContribution "sidetree:" 5 101 "bh" (fun _ => 3) 0
        { txid := "t9", vout := none, vinCount := 4 }
      = (none, none) ∧
    processBlockTxns "sidetree:" 5 101 "bh" (fun _ => 3)
        ([] ++ { txid := "t9", vout := none, vinCount := 4 }
          :: [{ txid := "t0", vout := some [some "sidetree:xyz"], vinCount := 1 }])
      = { newRecords :=
            (processBlockTxnsAux "sidetree:" 5 101 "bh" (fun _ => 3) 0
                ([] : List BTxn)).newRecords
            ++ (processBlockTxnsAux "sidetree:" 5 101 "bh" (fun _ => 3) 1
                [{ txid := "t0", vout := some [some "sidetree:xyz"],
                   vinCount := 1 }]).newRecords,
          sampled :=
            (processBlockTxnsAux "sidetree:" 5 101 "bh" (fun _ => 3) 0
                ([] : List BTxn)).sampled
            ++ (processBlockTxnsAux "sidetree:" 5 101 "bh" (fun _ => 3) 1
                [{ txid := "t0", vout := some [some "sidetree:xyz"],
                   vinCount := 1 }]).sampled } :=
  processBlock_skips_transaction_without_vout "sidetree:" 5 101 "bh" (fun _ => 3)
    [] [{ txid := "t0", vout := some [some "sidetree:xyz"], vinCount := 1 }]
    { txid := "t9", vout := none, vinCount := 4 }
    rfl

/-- C8: every successful transactions query returns exactly the store's page of
records strictly later than `since` (from the beginning when `since` is
absent), the page is capped at `pageSize`, every returned record is strictly
greater than a supplied `since`, and `moreTransactions` is true iff the number
of returned records equals `pageSize`. -/
theorem transactionsQuery_success_returns_later_page (verify : Nat → String → Bool)
    (log : List TxRecord) (pageSize : Nat) (since : Option Nat) (hash : Option String)
    (ts : List TxRecord) (more : Bool)
    (hok : transactionsQuery verify log pageSize since hash = Except.ok (ts, more)) :
    ts = getTransactionsLaterThan log since pageSize ∧
    ts.length ≤ pageSize ∧
    (∀ r ∈ ts, ∀ n, since = some n → n < r.transactionNumber) ∧
    (more = true ↔ ts.length = pageSize) := by
  simp only [transactionsQuery] at hok
  split at hok
  · exact absurd hok (by simp)
  · split at hok
    · exact absurd hok (by simp)
    · simp only [Except.ok.injEq, Prod.mk.injEq] at hok
      obtain ⟨h1, h2⟩ := hok
      subst h1
      refine ⟨rfl, List.length_take_le _ _, ?_, ?_⟩
      · intro r hr n hn
        subst hn
        have hmem := List.mem_of_mem_take hr
        have hp := (List.mem_filter.mp hmem).2
        simpa using hp
      · rw [← h2]
        simp [beq_iff_eq]

/-- C8 witness: a two-record log with page size 1 and no `since` returns the
first record only, capped at the page size. -/
theorem transactionsQuery_success_returns_later_page_witness :
    ([{ transactionNumber := TransactionNumber.construct 5 0, transactionTime := 5,
        transactionTimeHash := "h5", anchorString := "a", feePaid := 0 }]
      : List TxRecord)
      = getTransactionsLaterThan
          [{ transactionNumber := TransactionNumber.construct 5 0, transactionTime := 5,
             transactionTimeHash := "h5", anchorString := "a", feePaid := 0 },
           { transactionNumber := TransactionNumber.construct 7 0, transactionTime := 7,
             transactionTimeHash := "h7", anchorString := "b", feePaid := 0 }]
          none 1 ∧
    (true = true ↔
      ([{ transactionNumber := TransactionNumber.construct 5 0, transactionTime := 5,
          transactionTimeHash := "h5", anchorString := "a", feePaid := 0 }]
        : List TxRecord).length = 1) :=
  ⟨(transactionsQuery_success_returns_later_page (fun _ _ => true)
      [{ transactionNumber := TransactionNumber.construct 5 0, transactionTime := 5,
         transactionTimeHash := "h5", anchorString := "a", feePaid := 0 },
       { transactionNumber := TransactionNumber.construct 7 0, transactionTime := 7,
         transactionTimeHash := "h7", anchorString := "b", feePaid := 0 }]
      1 none none
      [{ transactionNumber := TransactionNumber.construct 5 0, transactionTime := 5,
         transactionTimeHash := "h5", anchorString := "a", feePaid := 0 }]
      true rfl).1,
   (transactionsQuery_success_returns_later_page (fun _ _ => true)
      [{ transactionNumber := TransactionNumber.construct 5 0, transactionTime := 5,
         transactionTimeHash := "h5", anchorString := "a", feePaid := 0 },
       { transactionNumber := TransactionNumber.construct 7 0, transactionTime := 7,
         transactionTimeHash := "h7", anchorString := "b", feePaid := 0 }]
      1 none none
      [{ transactionNumber := TransactionNumber.construct 5 0, transactionTime := 5,
         transactionTimeHash := "h5", anchorString := "a", feePaid := 0 }]
      true rfl).2.2.2⟩

/-- The timeouts used by the retry loop starting at attempt `k` are
`t0·2^k, t0·2^(k+1), …`, one per attempt made. -/
theorem fetchWithRetryGo_timeouts (t0 maxRetries : Nat) (oracle : Nat → AttemptResult) :
    ∀ m k, maxRetries - k ≤ m →
      (fetchWithRetryGo t0 maxRetries oracle k).1
        = (List.range' k (fetchWithRetryGo t0 maxRetries oracle k).1.length).map
            (fun j => t0 * 2 ^ j) := by
  intro m
  induction m with
  | zero =>
      intro k hk
      have hk2 : maxRetries ≤ k := by omega
      have hunfold : fetchWithRetryGo t0 maxRetries oracle k
          = (match oracle k with
             | AttemptResult.ok => ([t0 * 2 ^ k], FetchResult.ok)
             | AttemptResult.fatal => ([t0 * 2 ^ k], FetchResult.fatalError)
             | AttemptResult.timedOut => ([t0 * 2 ^ k], FetchResult.timeoutError)) := by
        rw [fetchWithRetryGo]
        cases oracle k <;> simp [hk2]
      rw [hunfold]
      cases oracle k <;> rfl
  | succ m ih =>
      intro k hk
      by_cases hk2 : maxRetries ≤ k
      · have hunfold : fetchWithRetryGo t0 maxRetries oracle k
            = (match oracle k with
               | AttemptResult.ok => ([t0 * 2 ^ k], FetchResult.ok)
               | AttemptResult.fatal => ([t0 * 2 ^ k], FetchResult.fatalError)
               | AttemptResult.timedOut => ([t0 * 2 ^ k], FetchResult.timeoutError)) := by
          rw [fetchWithRetryGo]
          cases oracle k <;> simp [hk2]
        rw [hunfold]
        cases oracle k <;> rfl
      · have hrec := ih (k + 1) (by omega)
        have hunfold : fetchWithRetryGo t0 maxRetries oracle k
            = (match oracle k with
               | AttemptResult.ok => ([t0 * 2 ^ k], FetchResult.ok)
               | AttemptResult.fatal => ([t0 * 2 ^ k], FetchResult.fatalError)
               | AttemptResult.timedOut =>
                   (t0 * 2 ^ k :: (fetchWithRetryGo t0 maxRetries oracle (k + 1)).1,
                    (fetchWithRetryGo t0 maxRetries oracle (k + 1)).2)) := by
          rw [fetchWithRetryGo]
          cases oracle k <;> simp [hk2]
        rw [hunfold]
        cases oracle k
        · rfl
        · rw [List.length_cons, List.range'_succ, List.map_cons]
          exact congrArg (fun l => t0 * 2 ^ k :: l) hrec
        · rfl

/-- If every attempt up to `maxRetries` times out, the loop started at
`k ≤ maxRetries` makes attempts `k .. maxRetries` and raises the timeout. -/
theorem fetchWithRetryGo_all_timeouts (t0 maxRetries : Nat) (oracle : Nat → AttemptResult) :
    ∀ m k, maxRetries - k ≤ m → k ≤ maxRetries →
      (∀ j, j ≤ maxRetries → oracle j = AttemptResult.timedOut) →
      fetchWithRetryGo t0 maxRetries oracle k
        = ((List.range' k (maxRetries + 1 - k)).map (fun j => t0 * 2 ^ j),
           FetchResult.timeoutError) := by
  intro m
  induction m with
  | zero =>
      intro k hm hkle hall
      have hkk : k = maxRetries := by omega
      subst hkk
      rw [fetchWithRetryGo, hall k (le_refl k)]
      have h1 : k + 1 - k = 1 := by omega
      simp [h1, List.range']
  | succ m ih =>
      intro k hm hkle hall
      by_cases hk2 : maxRetries ≤ k
      · have hkk : k = maxRetries := by omega
        subst hkk
        rw [fetchWithRetryGo, hall k (le_refl k)]
        have h1 : k + 1 - k = 1 := by omega
        simp [h1, List.range']
      · have hrec := ih (k + 1) (by omega) (by omega) hall
        rw [fetchWithRetryGo, hall k hkle]
        simp only [hk2, if_false, hrec]
        have h1 : maxRetries + 1 - k = (maxRetries + 1 - (k + 1)) + 1 := by omega
        rw [h1, List.range'_succ, List.map_cons]

/-- If attempts `i .. k-1` time out and attempt `k ≤ maxRetries` fails with a
non-timeout error, the loop started at `i` makes exactly attempts `i .. k` and
raises that error immediately. -/
theorem fetchWithRetryGo_fatal_stops (t0 maxRetries : Nat) (oracle : Nat → AttemptResult) :
    ∀ m i k, k - i ≤ m → i ≤ k → k ≤ maxRetries →
      (∀ j, i ≤ j → j < k → oracle j = AttemptResult.timedOut) →
      oracle k = AttemptResult.fatal →
      fetchWithRetryGo t0 maxRetries oracle i
        = ((List.range' i (k + 1 - i)).map (fun j => t0 * 2 ^ j),
           FetchResult.fatalError) := by
  intro m
  induction m with
  | zero =>
      intro i k hm hik hkmax hbefore hfatal
      have hkk : i = k := by omega
      subst hkk
      rw [fetchWithRetryGo, hfatal]
      have h1 : i + 1 - i = 1 := by omega
      simp [h1, List.range']
  | succ m ih =>
      intro i k hm hik hkmax hbefore hfatal
      by_cases hik2 : i = k
      · subst hik2
        rw [fetchWithRetryGo, hfatal]
        have h1 : i + 1 - i = 1 := by omega
        simp [h1, List.range']
      · have hlt : i < k := lt_of_le_of_ne hik hik2
        have ht : oracle i = AttemptResult.timedOut := hbefore i (le_refl i) hlt
        have hrec := ih (i + 1) k (by omega) (by omega) hkmax
          (fun j hj1 hj2 => hbefore j (by omega) hj2) hfatal
        rw [fetchWithRetryGo, ht]
        have hni : ¬ maxRetries ≤ i := by omega
        simp only [hni, if_false, hrec]
        have h1 : k + 1 - i = (k + 1 - (i + 1)) + 1 := by omega
        rw [h1, List.range'_succ, List.map_cons]

/-- C9: for every upstream fetch, the k-th attempt (k from 0) uses timeout
`t0·2^k`; if every attempt times out, the loop retries until `maxRetries`
retries are exhausted (making `maxRetries + 1` attempts in total) and then
raises the timeout error; a non-timeout error at attempt k (after k timed-out
attempts) is raised immediately with no further attempts. -/
theorem fetchWithRetry_policy (t0 maxRetries : Nat) (oracle : Nat → AttemptResult) :
    ((fetchWithRetry t0 maxRetries oracle).1
        = (List.range' 0 (fetchWithRetry t0 maxRetries oracle).1.length).map
            (fun k => t0 * 2 ^ k)) ∧
    ((∀ j, j ≤ maxRetries → oracle j = AttemptResult.timedOut) →
      fetchWithRetry t0 maxRetries oracle
        = ((List.range' 0 (maxRetries + 1)).map (fun k => t0 * 2 ^ k),
           FetchResult.timeoutError)) ∧
    (∀ k, k ≤ maxRetries → (∀ j, j < k → oracle j = AttemptResult.timedOut) →
      oracle k = AttemptResult.fatal →
      fetchWithRetry t0 maxRetries oracle
        = ((List.range' 0 (k + 1)).map (fun j => t0 * 2 ^ j),
           FetchResult.fatalError)) := by
  refine ⟨?_, ?_, ?_⟩
  · exact fetchWithRetryGo_timeouts t0 maxRetries oracle maxRetries 0 (by omega)
  · intro hall
    have h := fetchWithRetryGo_all_timeouts t0 maxRetries oracle maxRetries 0
      (by omega) (Nat.zero_le _) hall
    simpa using h
  · intro k hk hbefore hfatal
    have h := fetchWithRetryGo_fatal_stops t0 maxRetries oracle k 0 k (by omega)
      (Nat.zero_le _) hk (fun j _ hj2 => hbefore j hj2) hfatal
    simpa using h

/-- C9 witness: with base timeout 3 and 2 retries allowed, three all-timing-out
attempts use timeouts 3, 6, 12 and end in the timeout error. -/
theorem fetchWithRetry_policy_witness :
    fetchWithRetry 3 2 (fun _ => AttemptResult.timedOut)
      = ([3, 6, 12], FetchResult.timeoutError) :=
  (fetchWithRetry_policy 3 2 (fun _ => AttemptResult.timedOut)).2.1 (fun _ _ => rfl)

end Sidetree
